import Mathlib

/-!
Verification development for the salon service-analysis dashboard
(`new.py`, `service.py`): shallow embedding of the data-cleaning,
aggregation, growth and currency-formatting logic, with theorems about
the claims of the specification.

Conventions: pandas/python floats over the data pipeline are modelled as
rationals (`ℚ`); float division that can produce `inf`/`nan` is modelled
by the sum type `PFloat`; machine strings are Lean `String`/`List Char`.
-/

/-- Result of a pandas float division: either a finite value or one of the
IEEE non-finite results that `x / 0` produces elementwise. -/
inductive PFloat where
  | fin (q : ℚ)
  | inf
  | ninf
  | nan
deriving DecidableEq

/-- Pandas/numpy elementwise float division `a / b`: finite quotient when
`b ≠ 0`, and `+inf` / `-inf` / `nan` (by the sign of `a`) when `b = 0`. -/
def pdiv (a b : ℚ) : PFloat :=
  if b = 0 then
    (if 0 < a then PFloat.inf else if a < 0 then PFloat.ninf else PFloat.nan)
  else PFloat.fin (a / b)

/-! ## Currency formatter (`format_indian_money`, new.py lines 11-40) -/

/-- Python `round` on a real amount: nearest integer, ties to even
(banker's rounding), as used by `int(round(num))`. -/
def pyRound (q : ℚ) : ℤ :=
  if q - Int.floor q < 1 / 2 then Int.floor q
  else if 1 / 2 < q - Int.floor q then Int.floor q + 1
  else if Even (Int.floor q) then Int.floor q else Int.floor q + 1

/-- Decimal digit as a character, as produced by Python `str` on an integer. -/
def digitChar' : ℕ → Char
  | 0 => '0'
  | 1 => '1'
  | 2 => '2'
  | 3 => '3'
  | 4 => '4'
  | 5 => '5'
  | 6 => '6'
  | 7 => '7'
  | 8 => '8'
  | 9 => '9'
  | _ => '*'

/-- Inverse of `digitChar'` on decimal digits, used to model parsing the
formatted string back with `int`. -/
def toDigit : Char → ℕ
  | '0' => 0
  | '1' => 1
  | '2' => 2
  | '3' => 3
  | '4' => 4
  | '5' => 5
  | '6' => 6
  | '7' => 7
  | '8' => 8
  | '9' => 9
  | _ => 0

/-- Little-endian base-10 digits of `n`, with explicit fuel so that the
definition is structurally recursive (the fuel `n` always suffices). -/
def digitsAux : ℕ → ℕ → List ℕ
  | 0, _ => []
  | _ + 1, 0 => []
  | f + 1, n + 1 => ((n + 1) % 10) :: digitsAux f ((n + 1) / 10)

/-- Little-endian base-10 digits of `n` (empty for `0`). -/
def natDigits (n : ℕ) : List ℕ := digitsAux n n

/-- Python `str` of a non-negative integer, as a character list. -/
def natStr (n : ℕ) : List Char :=
  if n = 0 then ['0'] else ((natDigits n).reverse.map digitChar')

/-- Python `str` of an integer, as a character list. -/
def intStr (z : ℤ) : List Char :=
  if z < 0 then '-' :: natStr z.natAbs else natStr z.natAbs

/-- The comma-insertion loop of `format_with_indian_commas`
(`for i in range(len(rest)-1, -1, -2)`), indexed by the loop variable `i`:
the value equals the `formatted_rest` accumulated by the iterations for
indices `i, i-2, ..., down to 0 or 1`. -/
def formatLoop (rest : List Char) : ℕ → List Char
  | 0 => rest.take 1
  | 1 => ',' :: (rest.drop 0).take 2
  | i + 2 => formatLoop rest i ++ ',' :: (rest.drop (i + 1)).take 2

/-- Strip one leading comma (`if result.startswith(','): result = result[1:]`). -/
def stripLeadingComma (l : List Char) : List Char :=
  if l.head? = some ',' then l.tail else l

/-- The helper `format_with_indian_commas` applied to an already-rounded
integer `z` (the Python code's `s = str(int(round(num)))` and grouping). -/
def fwicOfInt (z : ℤ) : List Char :=
  let s := intStr z
  if 3 < s.length then
    let last3 := s.drop (s.length - 3)
    let rest := s.take (s.length - 3)
    let fr := formatLoop rest (rest.length - 1)
    let result := if fr = [] then last3 else fr ++ ',' :: last3
    stripLeadingComma result
  else s

/-- `format_with_indian_commas(num)` from new.py: round to an integer, then
apply South-Asian digit grouping. -/
def format_with_indian_commas (q : ℚ) : List Char :=
  fwicOfInt (pyRound q)

/-- `format_indian_money(amount, format_type)` from new.py lines 11-40.
The `format_type` parameter is accepted (default `'full'` at the call
sites) but, exactly as in the source, never read.  The `pd.isna` guard has
no counterpart since `ℚ` has no NaN. -/
def format_indian_money (amount : ℚ) (_format_type : String) : String :=
  if amount = 0 then "₹0"
  else String.mk ('₹' :: format_with_indian_commas amount)

/-- Character filter used to state the round-trip property: keep everything
except the currency symbol and commas. -/
def notCur (c : Char) : Bool := !(c == '₹' || c == ',')

/-- Remove the currency symbol and all commas from a formatted string. -/
def stripCurrency (s : String) : List Char := s.data.filter notCur

/-- Parse a digit string (most significant digit first) as a natural
number, modelling Python `int` on the stripped formatted output. -/
def parseNatChars (l : List Char) : ℕ :=
  Nat.ofDigits 10 ((l.map toDigit).reverse)

/-! ## Lemmas about the currency formatter -/

/-- Rounding an integer-valued amount is the identity. -/
theorem pyRound_intCast (z : ℤ) : pyRound ((z : ℚ)) = z := by
  have h : ((z : ℚ)) - Int.floor ((z : ℚ)) = 0 := by
    rw [Int.floor_intCast]; ring
  unfold pyRound
  rw [h, Int.floor_intCast]
  norm_num

/-- Rounding a non-negative amount gives a non-negative integer. -/
theorem pyRound_nonneg (q : ℚ) (hq : 0 ≤ q) : 0 ≤ pyRound q := by
  have h : (0 : ℤ) ≤ Int.floor q := Int.floor_nonneg.mpr hq
  unfold pyRound
  split
  · exact h
  · split
    · omega
    · split <;> omega

theorem digitsAux_zero (f : ℕ) : digitsAux f 0 = [] := by
  cases f <;> rfl

/-- Every entry produced by `digitsAux` is a decimal digit. -/
theorem digitsAux_lt (f : ℕ) : ∀ n, ∀ d ∈ digitsAux f n, d < 10 := by
  induction f with
  | zero => intro n d hd; simp [digitsAux] at hd
  | succ f ih =>
    intro n d hd
    cases n with
    | zero => simp [digitsAux] at hd
    | succ m =>
      rw [digitsAux] at hd
      rcases List.mem_cons.mp hd with h | h
      · subst h; exact Nat.mod_lt _ (by norm_num)
      · exact ih _ _ h

/-- With sufficient fuel, `digitsAux` produces the base-10 digits of `n`. -/
theorem ofDigits_digitsAux (f : ℕ) : ∀ n, n ≤ f → Nat.ofDigits 10 (digitsAux f n) = n := by
  induction f with
  | zero =>
    intro n hn
    interval_cases n
    simp [digitsAux]
  | succ f ih =>
    intro n hn
    cases n with
    | zero => simp [digitsAux]
    | succ m =>
      rw [digitsAux, Nat.ofDigits_cons, ih ((m + 1) / 10) (by
        have := Nat.div_lt_self (Nat.succ_pos m) (by norm_num : 1 < 10)
        omega)]
      omega

theorem toDigit_digitChar (d : ℕ) (hd : d < 10) : toDigit (digitChar' d) = d := by
  interval_cases d <;> rfl

theorem notCur_digitChar (d : ℕ) : notCur (digitChar' d) = true := by
  rcases d with _ | _ | _ | _ | _ | _ | _ | _ | _ | _ | d <;> rfl

/-- Every character of `natStr n` survives the currency/comma filter. -/
theorem notCur_natStr (n : ℕ) : ∀ c ∈ natStr n, notCur c = true := by
  intro c hc
  unfold natStr at hc
  split at hc
  · simp at hc; subst hc; rfl
  · rcases List.mem_map.mp hc with ⟨d, _, rfl⟩
    exact notCur_digitChar d

/-- Every character of `intStr z` survives the currency/comma filter. -/
theorem notCur_intStr (z : ℤ) : ∀ c ∈ intStr z, notCur c = true := by
  intro c hc
  unfold intStr at hc
  split at hc
  · rcases List.mem_cons.mp hc with h | h
    · subst h; rfl
    · exact notCur_natStr _ c h
  · exact notCur_natStr _ c hc

/-- Filtering the commas back out of the comma-insertion loop recovers the
first `i + 1` characters of `rest`. -/
theorem formatLoop_filter (rest : List Char) (h : ∀ c ∈ rest, notCur c = true) :
    ∀ i, (formatLoop rest i).filter notCur = rest.take (i + 1) := by
  intro i
  induction i using Nat.strong_induction_on with
  | _ i ih =>
    match i with
    | 0 =>
      rw [formatLoop]
      exact List.filter_eq_self.mpr (fun c hc => h c (List.mem_of_mem_take hc))
    | 1 =>
      rw [formatLoop, List.filter_cons_of_neg (by decide), List.drop_zero]
      exact List.filter_eq_self.mpr (fun c hc => h c (List.mem_of_mem_take hc))
    | i + 2 =>
      rw [formatLoop, List.filter_append, ih i (by omega),
        List.filter_cons_of_neg (by decide),
        List.filter_eq_self.mpr
          (fun c hc => h c (List.mem_of_mem_drop (List.mem_of_mem_take hc))),
        ← List.take_add]

/-- Stripping a leading comma commutes with the comma filter. -/
theorem filter_stripLeadingComma (l : List Char) :
    (stripLeadingComma l).filter notCur = l.filter notCur := by
  unfold stripLeadingComma
  split
  · cases l with
    | nil => rfl
    | cons c t =>
      rename_i hh
      simp only [List.head?] at hh
      have : c = ',' := by injection hh
      subst this
      rw [List.tail_cons, List.filter_cons_of_neg (by decide)]
  · rfl

/-- Filtering the currency symbol and commas out of the grouped digits
recovers the plain decimal string. -/
theorem fwicOfInt_filter (z : ℤ) : (fwicOfInt z).filter notCur = intStr z := by
  unfold fwicOfInt
  dsimp only
  split
  · rename_i hlen
    rw [filter_stripLeadingComma]
    set s := intStr z with hs
    have hrest : ∀ c ∈ s.take (s.length - 3), notCur c = true :=
      fun c hc => notCur_intStr z c (List.mem_of_mem_take hc)
    have hlenrest : (s.take (s.length - 3)).length = s.length - 3 := by
      rw [List.length_take]; omega
    have hfr := formatLoop_filter (s.take (s.length - 3)) hrest
      ((s.take (s.length - 3)).length - 1)
    rw [show (s.take (s.length - 3)).length - 1 + 1 = (s.take (s.length - 3)).length from by
      omega, List.take_length] at hfr
    have hfrne : formatLoop (s.take (s.length - 3)) ((s.take (s.length - 3)).length - 1) ≠ [] := by
      intro hnil
      rw [hnil] at hfr
      have htake : List.take (s.length - 3) s = [] := by rw [← hfr]; rfl
      rw [htake] at hlenrest
      simp at hlenrest
      omega
    rw [if_neg hfrne, List.filter_append, hfr, List.filter_cons_of_neg (by decide),
      List.filter_eq_self.mpr (fun c hc => notCur_intStr z c (List.mem_of_mem_drop hc)),
      List.take_append_drop]
  · exact List.filter_eq_self.mpr (notCur_intStr z)

/-- Parsing the plain decimal string of `n` recovers `n`. -/
theorem parseNatChars_natStr (n : ℕ) : parseNatChars (natStr n) = n := by
  unfold natStr
  split
  · rename_i h; subst h; rfl
  · unfold parseNatChars
    rw [List.map_map,
      List.map_congr_left (fun d hd => by
        have : d < 10 := digitsAux_lt n n d (List.mem_reverse.mp hd)
        show (toDigit ∘ digitChar') d = id d
        simp [Function.comp, toDigit_digitChar d this]),
      List.map_id, List.reverse_reverse]
    exact ofDigits_digitsAux n n le_rfl

/-- Stripping the currency symbol and the commas from `format_indian_money`
leaves exactly the decimal string of the rounded amount. -/
theorem stripCurrency_format (q : ℚ) (ft : String) :
    stripCurrency (format_indian_money q ft) = intStr (pyRound q) := by
  unfold format_indian_money stripCurrency
  split
  · rename_i h0
    rw [h0, show ((0 : ℚ)) = (((0 : ℤ)) : ℚ) from by norm_num, pyRound_intCast]
    rfl
  · show ('₹' :: format_with_indian_commas q).filter notCur = _
    rw [List.filter_cons_of_neg (by decide), format_with_indian_commas]
    exact fwicOfInt_filter _

/-- Helper: concrete value of the formatter at `1234567`, any format type. -/
theorem format_1234567 (ft : String) : format_indian_money 1234567 ft = "₹12,34,567" := by
  have e : pyRound (1234567 : ℚ) = 1234567 := by
    rw [show (1234567 : ℚ) = ((1234567 : ℤ) : ℚ) from by norm_num, pyRound_intCast]
  rw [format_indian_money, if_neg (by norm_num), format_with_indian_commas, e]
  decide

/-- Helper: concrete value of the formatter at `1000`, any format type. -/
theorem format_1000 (ft : String) : format_indian_money 1000 ft = "₹1,000" := by
  have e : pyRound (1000 : ℚ) = 1000 := by
    rw [show (1000 : ℚ) = ((1000 : ℤ) : ℚ) from by norm_num, pyRound_intCast]
  rw [format_indian_money, if_neg (by norm_num), format_with_indian_commas, e]
  decide

/-- C2: for every non-negative amount, removing the currency symbol and the
commas from `format_indian_money` and parsing the remainder as an integer
reproduces `round(n)`; in particular `format_indian_money 1234567 =
"₹12,34,567"`, `format_indian_money 1000 = "₹1,000"` and
`format_indian_money 0 = "₹0"`. -/
theorem C2_format_roundtrip :
    (∀ q : ℚ, 0 ≤ q →
      (parseNatChars (stripCurrency (format_indian_money q "full")) : ℤ) = pyRound q) ∧
    format_indian_money 1234567 "full" = "₹12,34,567" ∧
    format_indian_money 1000 "full" = "₹1,000" ∧
    format_indian_money 0 "full" = "₹0" := by
  refine ⟨fun q hq => ?_, format_1234567 "full", format_1000 "full", rfl⟩
  rw [stripCurrency_format]
  have h0 : 0 ≤ pyRound q := pyRound_nonneg q hq
  rw [intStr, if_neg (by omega), parseNatChars_natStr]
  exact Int.natAbs_of_nonneg h0

/-- Witness for C2 at the concrete amount `1234567`. -/
theorem C2_format_roundtrip_witness :
    (0 : ℚ) ≤ 1234567 ∧
    (parseNatChars (stripCurrency (format_indian_money 1234567 "full")) : ℤ) =
      pyRound 1234567 :=
  ⟨by norm_num, C2_format_roundtrip.1 1234567 (by norm_num)⟩

/-- C3: `format_indian_money` accepts a `format_type` argument but never
reads it: every format type (including `'lakhs'`, passed at the headline
metric call sites) produces exactly the default full-grouping output, so
no unit-scaled, suffixed display mode exists.  In particular
`format_indian_money 1234567 "lakhs"` is the plain `"₹12,34,567"`. -/
theorem C3_format_type_ignored :
    (∀ (amount : ℚ) (ft : String),
      format_indian_money amount ft = format_indian_money amount "full") ∧
    format_indian_money 1234567 "lakhs" = "₹12,34,567" := by
  exact ⟨fun amount ft => rfl, format_1234567 "lakhs"⟩

theorem digitsAux_len1 (f n : ℕ) (h1 : 1 ≤ n) (h2 : n ≤ 9) (hf : n ≤ f) :
    (digitsAux f n).length = 1 := by
  rcases f with _ | f
  · omega
  rcases n with _ | n
  · omega
  rw [digitsAux, List.length_cons, Nat.div_eq_of_lt (by omega), digitsAux_zero]
  rfl

theorem digitsAux_len2 (f n : ℕ) (h1 : 10 ≤ n) (h2 : n ≤ 99) (hf : n ≤ f) :
    (digitsAux f n).length = 2 := by
  rcases f with _ | f
  · omega
  rcases n with _ | n
  · omega
  rw [digitsAux, List.length_cons,
    digitsAux_len1 f ((n + 1) / 10) (by omega) (by omega)
      (by
        have := Nat.div_lt_self (Nat.succ_pos n) (by norm_num : 1 < 10)
        omega)]

theorem digitsAux_len3 (f n : ℕ) (h1 : 100 ≤ n) (h2 : n ≤ 999) (hf : n ≤ f) :
    (digitsAux f n).length = 3 := by
  rcases f with _ | f
  · omega
  rcases n with _ | n
  · omega
  rw [digitsAux, List.length_cons,
    digitsAux_len2 f ((n + 1) / 10) (by omega) (by omega)
      (by
        have := Nat.div_lt_self (Nat.succ_pos n) (by norm_num : 1 < 10)
        omega)]

/-- A three-digit number prints as three characters. -/
theorem natStr_len3 (n : ℕ) (h1 : 100 ≤ n) (h2 : n ≤ 999) : (natStr n).length = 3 := by
  rw [natStr, if_neg (by omega), List.length_map, List.length_reverse]
  exact digitsAux_len3 n n h1 h2 le_rfl

/-- Grouping a string of the shape `-ddd`: the minus sign alone forms the
`rest`, producing the spurious `-,ddd` output. -/
theorem fwicOfInt_neg3 (z : ℤ) (l : List Char) (h : intStr z = '-' :: l)
    (hl : l.length = 3) : fwicOfInt z = '-' :: ',' :: l := by
  unfold fwicOfInt
  dsimp only
  rw [h]
  have hlen : ('-' :: l).length = 4 := by simp [hl]
  rw [hlen]
  norm_num
  simp [formatLoop, stripLeadingComma]

/-- C9: a negative amount whose absolute value has exactly three digits is
formatted as `"₹-,"` followed by the three digits — the comma-insertion
loop treats the minus sign as a leading digit group, producing a spurious
comma between the sign and the digits. -/
theorem C9_negative_three_digits (n : ℕ) (h1 : 100 ≤ n) (h2 : n ≤ 999) :
    format_indian_money (-(n : ℚ)) "full" = String.mk ('₹' :: '-' :: ',' :: natStr n) := by
  have hne : ¬(-(n : ℚ)) = 0 := by
    intro h
    rw [neg_eq_zero] at h
    have : (n : ℚ) ≠ 0 := by
      norm_cast
      omega
    exact this h
  have hr : pyRound (-(n : ℚ)) = -(n : ℤ) := by
    rw [show (-(n : ℚ)) = (((-(n : ℤ)) : ℤ) : ℚ) from by push_cast; ring, pyRound_intCast]
  have hs : intStr (-(n : ℤ)) = '-' :: natStr n := by
    rw [intStr, if_pos (by omega)]
    congr 1
    simp
  rw [format_indian_money, if_neg hne, format_with_indian_commas, hr,
    fwicOfInt_neg3 _ (natStr n) hs (natStr_len3 n h1 h2)]

/-- Witness for C9 at the concrete amount `-123`. -/
theorem C9_negative_three_digits_witness :
    (100 ≤ 123 ∧ 123 ≤ 999) ∧
    format_indian_money (-((123 : ℕ) : ℚ)) "full" =
      String.mk ('₹' :: '-' :: ',' :: natStr 123) :=
  ⟨by omega, C9_negative_three_digits 123 (by omega) (by omega)⟩

/-! ## Generic grouped aggregation (pandas `groupby(...).sum()`) -/

/-- Look up a key in an association list (first match). -/
def lookupKey {β : Type} (k : String) : List (String × β) → Option β
  | [] => none
  | (k', v) :: t => if k' = k then some v else lookupKey k t

/-- Add `v` into the accumulator under key `k`, combining with `+` when the
key is already present (the running per-group sum of a `groupby`). -/
def upsertA {β : Type} [Add β] : List (String × β) → String → β → List (String × β)
  | [], k, v => [(k, v)]
  | (k', v') :: t, k, v =>
      if k' = k then (k', v' + v) :: t else (k', v') :: upsertA t k v

/-- `groupby(key).agg(sum of val)`: fold the rows into per-key sums. -/
def groupFold {α β : Type} [Add β] (key : α → String) (val : α → β)
    (rows : List α) : List (String × β) :=
  rows.foldl (fun acc r => upsertA acc (key r) (val r)) []

theorem lookupKey_upsertA {β : Type} [Add β] (acc : List (String × β)) (k k' : String)
    (v : β) :
    lookupKey k (upsertA acc k' v) =
      if k' = k then
        (match lookupKey k acc with
         | some w => some (w + v)
         | none => some v)
      else lookupKey k acc := by
  induction acc with
  | nil =>
    by_cases h : k' = k <;> simp [upsertA, lookupKey, h]
  | cons p t ih =>
    obtain ⟨k0, v0⟩ := p
    rw [upsertA]
    by_cases h0 : k0 = k'
    · rw [if_pos h0]
      subst h0
      by_cases h : k0 = k
      · subst h
        simp [lookupKey]
      · simp [lookupKey, h]
    · rw [if_neg h0]
      by_cases h : k0 = k
      · subst h
        have hne : ¬k' = k0 := fun he => h0 he.symm
        simp [lookupKey, hne]
      · simp [lookupKey, h, ih]

/-- Folding rows into per-key sums: the value found under `k` extends any
accumulator value by the sum of `val` over the rows whose key is `k`. -/
theorem lookupKey_foldl_upsertA {α β : Type} [AddCommMonoid β] (key : α → String)
    (val : α → β) (k : String) :
    ∀ (rows : List α) (acc : List (String × β)),
      lookupKey k (rows.foldl (fun a r => upsertA a (key r) (val r)) acc) =
        match lookupKey k acc with
        | some w => some (w + ((rows.filter (fun r => key r = k)).map val).sum)
        | none =>
            if k ∈ rows.map key
            then some (((rows.filter (fun r => key r = k)).map val).sum)
            else none := by
  intro rows
  induction rows with
  | nil =>
    intro acc
    cases h : lookupKey k acc <;> simp [h]
  | cons r rs ih =>
    intro acc
    rw [List.foldl_cons, ih (upsertA acc (key r) (val r)), lookupKey_upsertA]
    by_cases hk : key r = k
    · rw [if_pos hk]
      cases h : lookupKey k acc with
      | some w => simp [hk, List.filter_cons, add_assoc]
      | none => simp [hk, List.filter_cons]
    · rw [if_neg hk]
      have hk' : ¬k = key r := fun he => hk he.symm
      cases h : lookupKey k acc with
      | some w => simp [hk, List.filter_cons]
      | none => simp [hk, hk', List.filter_cons]

/-- The per-key sum computed by `groupFold` is the sum of `val` over the
rows of that key, and keys absent from the rows are absent from the
grouped table. -/
theorem lookupKey_groupFold {α β : Type} [AddCommMonoid β] (key : α → String)
    (val : α → β) (rows : List α) (k : String) :
    lookupKey k (groupFold key val rows) =
      if k ∈ rows.map key
      then some (((rows.filter (fun r => key r = k)).map val).sum)
      else none := by
  rw [groupFold, lookupKey_foldl_upsertA]
  rfl

theorem mem_keys_iff_lookupKey {β : Type} (k : String) (t : List (String × β)) :
    k ∈ t.map Prod.fst ↔ (lookupKey k t).isSome := by
  induction t with
  | nil => simp [lookupKey]
  | cons p t ih =>
    obtain ⟨k0, v0⟩ := p
    by_cases h : k0 = k
    · subst h
      simp [lookupKey]
    · have h' : ¬k = k0 := fun he => h he.symm
      simp [lookupKey, h, h', ih]

/-- A key appears in the grouped table iff it appears among the rows. -/
theorem mem_keys_groupFold {α β : Type} [AddCommMonoid β] (key : α → String)
    (val : α → β) (rows : List α) (k : String) :
    k ∈ (groupFold key val rows).map Prod.fst ↔ k ∈ rows.map key := by
  rw [mem_keys_iff_lookupKey, lookupKey_groupFold]
  by_cases h : k ∈ rows.map key <;> simp [h]

/-! ## Inner join (`pd.merge` with the default `how='inner'`) -/

/-- Inner merge of two keyed tables: keep each left row whose key has a
match on the right, pairing the two values. -/
def mergeInner {β γ : Type} (t1 : List (String × β)) (t2 : List (String × γ)) :
    List (String × β × γ) :=
  t1.filterMap (fun p =>
    match lookupKey p.1 t2 with
    | some w => some (p.1, p.2, w)
    | none => none)

/-- A key appears in the inner merge iff it appears on the left and has a
match on the right. -/
theorem mem_keys_mergeInner {β γ : Type} (t1 : List (String × β))
    (t2 : List (String × γ)) (k : String) :
    k ∈ (mergeInner t1 t2).map Prod.fst ↔
      (k ∈ t1.map Prod.fst ∧ (lookupKey k t2).isSome) := by
  induction t1 with
  | nil => simp [mergeInner]
  | cons p t ih =>
    obtain ⟨k0, v0⟩ := p
    have hcons : mergeInner ((k0, v0) :: t) t2 =
        (match lookupKey k0 t2 with
         | some w => (k0, v0, w) :: mergeInner t t2
         | none => mergeInner t t2) := by
      cases h : lookupKey k0 t2 <;> simp [mergeInner, List.filterMap_cons, h]
    rw [hcons]
    cases h : lookupKey k0 t2 with
    | some w =>
      by_cases hk : k = k0
      · subst hk
        simp [h]
      · simp [List.mem_cons, hk, ih]
    | none =>
      by_cases hk : k = k0
      · subst hk
        simp [ih, h]
      · simp [List.mem_cons, hk, ih]

/-! ## Growth Analysis tab: two-period comparison (new.py lines 1003-1024) -/

/-- A row of the long-format sales table used by the Growth Analysis tab. -/
structure Tab4Row where
  salonName : String
  mtdSales : ℚ
deriving DecidableEq

/-- `groupby('SALON NAMES')['MTD SALES'].sum()` for one period's rows. -/
def by_salon (rows : List Tab4Row) : List (String × ℚ) :=
  groupFold Tab4Row.salonName Tab4Row.mtdSales rows

/-- `growth_data = pd.merge(base_by_salon, compare_by_salon, on='SALON NAMES',
suffixes=(_base, _compare))` — `pd.merge` without `how` defaults to an
inner join.  (The `Growth_Amount`/`Growth_Percent` columns are derived from
the merged rows afterwards and do not change the row set.) -/
def growth_data (baseRows compareRows : List Tab4Row) : List (String × ℚ × ℚ) :=
  mergeInner (by_salon baseRows) (by_salon compareRows)

/-- C8: the two-period growth table has a row for a salon iff the salon
appears in both the base-period and the compare-period data (inner join on
the dimension key); salons present in only one period are excluded. -/
theorem C8_growth_inner_join (baseRows compareRows : List Tab4Row) (s : String) :
    s ∈ (growth_data baseRows compareRows).map Prod.fst ↔
      (s ∈ baseRows.map Tab4Row.salonName ∧ s ∈ compareRows.map Tab4Row.salonName) := by
  rw [growth_data, mem_keys_mergeInner]
  simp only [by_salon]
  rw [mem_keys_groupFold, ← mem_keys_iff_lookupKey, mem_keys_groupFold]

/-! ## Service & Product Analysis tab: category breakdown (new.py lines 402-436) -/

/-- A row of the category breakdown table (`breakdown_data`). -/
structure CatRow where
  businessUnit : String
  itemCategory : String
  totalSales : ℚ
deriving DecidableEq

/-- Descending order on `Total_Sales`, the sort key of
`breakdown_data.sort_values('Total_Sales', ascending=False)`. -/
def salesDesc (a b : CatRow) : Prop := b.totalSales ≤ a.totalSales

instance : DecidableRel salesDesc :=
  fun a b => inferInstanceAs (Decidable (b.totalSales ≤ a.totalSales))

instance : IsTotal CatRow salesDesc :=
  ⟨fun a b => le_total b.totalSales a.totalSales⟩

instance : IsTrans CatRow salesDesc :=
  ⟨fun _ _ _ h1 h2 => le_trans h2 h1⟩

/-- `business_unit_sales = breakdown_data.groupby('Business Unit')
['Total_Sales'].sum()` — computed over the FULL breakdown table. -/
def business_unit_sales (breakdown : List CatRow) : List (String × ℚ) :=
  groupFold CatRow.businessUnit CatRow.totalSales breakdown

/-- `top_categories = breakdown_data.sort_values('Total_Sales',
ascending=False).head(15)`. -/
def top_categories (breakdown : List CatRow) : List CatRow :=
  (List.insertionSort salesDesc breakdown).take 15

/-- C6: when the breakdown has more than 15 rows, the truncation returns
exactly 15 rows, sorted descending by `Total_Sales`, while each business
unit's rollup is the sum of `Total_Sales` over every row of that unit in
the full table (not just the top 15). -/
theorem C6_top15_and_rollup (breakdown : List CatRow) (h : 15 < breakdown.length) :
    (top_categories breakdown).length = 15 ∧
    (top_categories breakdown).Pairwise salesDesc ∧
    (∀ u ∈ breakdown.map CatRow.businessUnit,
      lookupKey u (business_unit_sales breakdown) =
        some (((breakdown.filter (fun r => r.businessUnit = u)).map
          CatRow.totalSales).sum)) := by
  refine ⟨?_, ?_, ?_⟩
  · rw [top_categories, List.length_take, List.length_insertionSort]
    omega
  · exact List.Pairwise.sublist (List.take_sublist _ _)
      (List.sorted_insertionSort salesDesc breakdown)
  · intro u hu
    rw [business_unit_sales, lookupKey_groupFold, if_pos hu]

/-- Concrete 16-row breakdown table used as the C6 witness. -/
def c6Rows : List CatRow :=
  [⟨"Hair", "c01", 160⟩, ⟨"Hair", "c02", 150⟩, ⟨"Hair", "c03", 140⟩,
   ⟨"Hair", "c04", 130⟩, ⟨"Skin", "c05", 120⟩, ⟨"Skin", "c06", 110⟩,
   ⟨"Skin", "c07", 100⟩, ⟨"Skin", "c08", 90⟩, ⟨"Spa", "c09", 80⟩,
   ⟨"Spa", "c10", 70⟩, ⟨"Spa", "c11", 60⟩, ⟨"Spa", "c12", 50⟩,
   ⟨"Products", "c13", 40⟩, ⟨"Products", "c14", 30⟩,
   ⟨"Products", "c15", 20⟩, ⟨"Products", "c16", 10⟩]

/-- Witness for C6 at a concrete 16-row breakdown. -/
theorem C6_top15_and_rollup_witness :
    15 < c6Rows.length ∧
    ((top_categories c6Rows).length = 15 ∧
     (top_categories c6Rows).Pairwise salesDesc ∧
     (∀ u ∈ c6Rows.map CatRow.businessUnit,
       lookupKey u (business_unit_sales c6Rows) =
         some (((c6Rows.filter (fun r => r.businessUnit = u)).map
           CatRow.totalSales).sum))) :=
  ⟨by decide, C6_top15_and_rollup c6Rows (by decide)⟩

/-! ## Derived ratio metrics (new.py lines 128-130, 715-716, 744-746) -/

/-- `avg_bill_value = total_sales / total_bills if total_bills > 0 else 0`
(tab1, line 129) — this one is guarded. -/
def avg_bill_value (total_sales total_bills : ℚ) : ℚ :=
  if 0 < total_bills then total_sales / total_bills else 0

/-- A row of the processed service table feeding the tab3 category and
center metrics. -/
structure SvcRow where
  serviceType : String
  totalSales : ℚ
  transactionCount : ℚ
deriving DecidableEq

/-- tab3 `category_details` (lines 710-716): group by `Service_Type`,
sum `Total_Sales` and `Transaction_Count`, then compute
`Average_Transaction = Total_Sales / Transaction_Count` — an UNGUARDED
pandas column division. -/
def category_details_avg (rows : List SvcRow) : List (String × PFloat) :=
  (groupFold SvcRow.serviceType (fun r => (r.totalSales, r.transactionCount)) rows).map
    (fun p => (p.1, pdiv p.2.1 p.2.2))

/-- C5 counterexample: a service category with positive sales and zero
transaction count makes the unguarded `Average_Transaction` division
produce `+inf`, not `0`. -/
theorem C5_avg_transaction_cex :
    category_details_avg [⟨"Spa", 500, 0⟩] = [("Spa", PFloat.inf)] ∧
    PFloat.inf ≠ PFloat.fin 0 := by
  constructor
  · show (groupFold _ _ _).map _ = _
    have h : groupFold SvcRow.serviceType
        (fun r => (r.totalSales, r.transactionCount)) [⟨"Spa", 500, 0⟩] =
        [("Spa", ((500 : ℚ), (0 : ℚ)))] := rfl
    rw [h]
    simp [pdiv]
  · decide

/-- C5 (amended): the tab1 `avg_bill_value` is guarded and returns `0` on a
zero bills total, but the tab3 `Average_Transaction` metrics divide without
a guard: on a zero transaction-count sum they return `+inf` (positive
sales), `-inf` (negative sales) or `NaN` (zero sales) — never `0`. -/
theorem C5_ratio_guards :
    (∀ s : ℚ, avg_bill_value s 0 = 0) ∧
    (∀ s b : ℚ, 0 < b → avg_bill_value s b = s / b) ∧
    (∀ a : ℚ, 0 < a → pdiv a 0 = PFloat.inf) ∧
    (∀ a : ℚ, a < 0 → pdiv a 0 = PFloat.ninf) ∧
    pdiv 0 0 = PFloat.nan ∧
    (∀ a b : ℚ, b ≠ 0 → pdiv a b = PFloat.fin (a / b)) := by
  refine ⟨fun s => ?_, fun s b hb => ?_, fun a ha => ?_, fun a ha => ?_, ?_, fun a b hb => ?_⟩
  · rw [avg_bill_value, if_neg (by norm_num)]
  · rw [avg_bill_value, if_pos hb]
  · rw [pdiv, if_pos rfl, if_pos ha]
  · rw [pdiv, if_pos rfl, if_neg (by linarith), if_pos ha]
  · rw [pdiv, if_pos rfl, if_neg (by norm_num), if_neg (by norm_num)]
  · rw [pdiv, if_neg hb]

/-- Witness for C5's amended statement at a concrete positive numerator. -/
theorem C5_ratio_guards_witness :
    (0 : ℚ) < 500 ∧ pdiv 500 0 = PFloat.inf :=
  ⟨by norm_num, C5_ratio_guards.2.2.1 500 (by norm_num)⟩

/-! ## Growth computation (new.py lines 818-821 and 1681-1686) -/

/-- tab5 growth column (lines 1681-1686): `(curr/prev - 1) * 100 if prev > 0
else 0` — a plain number, `0` whenever the base is not positive. -/
def tab5_growth_cell (prev curr : ℚ) : ℚ :=
  if 0 < prev then ((curr / prev) - 1) * 100 else 0

/-- tab3 center growth (lines 818-821): `(curr/prev - 1) * 100 if prev > 0
else float('inf')` — a raw float infinity whenever the base is not
positive, including the 0-to-0 case. -/
def tab3_growth_pct (prev curr : ℚ) : PFloat :=
  if 0 < prev then PFloat.fin (((curr / prev) - 1) * 100) else PFloat.inf

/-- C1 counterexample: at `base=0, compare=500` the tab5 growth column
reports the plain number `0` (not an infinite-growth marker), and at
`base=0, compare=0` the tab3 center growth reports a raw float infinity
(not `0`). -/
theorem C1_growth_zero_base_cex :
    tab5_growth_cell 0 500 = 0 ∧
    tab3_growth_pct 0 0 = PFloat.inf ∧
    PFloat.inf ≠ PFloat.fin 0 := by
  refine ⟨?_, ?_, by decide⟩
  · rw [tab5_growth_cell, if_neg (by norm_num)]
  · rw [tab3_growth_pct, if_neg (by norm_num)]

/-- C1 (amended): neither growth site produces a distinct infinite-growth
marker.  For every non-positive base the tab5 growth column is the number
`0` (regardless of the compare value) and the tab3 center growth is the raw
float infinity (regardless of the compare value); for a positive base both
report the usual percentage formula. -/
theorem C1_growth_zero_base :
    (∀ prev curr : ℚ, prev ≤ 0 →
      tab5_growth_cell prev curr = 0 ∧ tab3_growth_pct prev curr = PFloat.inf) ∧
    (∀ prev curr : ℚ, 0 < prev →
      tab5_growth_cell prev curr = ((curr / prev) - 1) * 100 ∧
      tab3_growth_pct prev curr = PFloat.fin (((curr / prev) - 1) * 100)) := by
  constructor
  · intro prev curr h
    constructor
    · rw [tab5_growth_cell, if_neg (by linarith)]
    · rw [tab3_growth_pct, if_neg (by linarith)]
  · intro prev curr h
    constructor
    · rw [tab5_growth_cell, if_pos h]
    · rw [tab3_growth_pct, if_pos h]

/-- Witness for C1's amended statement at base `0`, compare `700`. -/
theorem C1_growth_zero_base_witness :
    (0 : ℚ) ≤ 0 ∧
    tab5_growth_cell 0 700 = 0 ∧ tab3_growth_pct 0 700 = PFloat.inf :=
  ⟨le_refl 0, (C1_growth_zero_base.1 0 700 (le_refl 0))⟩

/-! ## MTD multi-year merge (new.py lines 1580-1703) -/

/-- `pd.merge(t1, t2, on='SALONS', how='outer')` on keyed single-value
tables: matched left rows first (pairing the right value when present),
then the unmatched right rows. -/
def outerMerge (t1 t2 : List (String × ℚ)) : List (String × Option ℚ × Option ℚ) :=
  t1.map (fun p => (p.1, some p.2, lookupKey p.1 t2)) ++
    (t2.filter (fun p => (lookupKey p.1 t1).isNone)).map
      (fun p => (p.1, none, some p.2))

/-- `fillna(0)` on one cell. -/
def fillZero (o : Option ℚ) : ℚ := o.getD 0

/-- The merged two-year table after
`merged_data[year] = pd.to_numeric(merged_data[year], ...).fillna(0)`
(lines 1590-1594): every missing cell becomes the number `0`. -/
def mergedFilled (t1 t2 : List (String × ℚ)) : List (String × ℚ × ℚ) :=
  (outerMerge t1 t2).map (fun r => (r.1, fillZero r.2.1, fillZero r.2.2))

/-- `totals[year] = merged_data[year].sum()` (lines 1700-1703) for the
first merged year: the sum ranges over every row of the merged table,
including the fill-generated zeros. -/
def totalsBase (m : List (String × ℚ × ℚ)) : ℚ := (m.map (fun r => r.2.1)).sum

/-- C4 counterexample: salon `"B"` is absent from the base-year table, yet
the merged-and-filled table contains the fabricated cell `("B", 0, 500)`,
the base-year total is computed over that fabricated `0`, and the growth
column computed from the fabricated `0` base is `0` (rather than the row
being excluded). -/
theorem C4_fillna_cex :
    mergedFilled [("A", 100)] [("A", 200), ("B", 500)] =
      [("A", 100, 200), ("B", 0, 500)] ∧
    totalsBase (mergedFilled [("A", 100)] [("A", 200), ("B", 500)]) = 100 + 0 ∧
    tab5_growth_cell 0 500 = 0 := by
  refine ⟨by decide, ?_, ?_⟩
  · show totalsBase (mergedFilled [("A", 100)] [("A", 200), ("B", 500)]) = 100 + 0
    have h : mergedFilled [("A", 100)] [("A", 200), ("B", 500)] =
        [("A", 100, 200), ("B", 0, 500)] := by decide
    rw [h]
    show (100 : ℚ) + (0 + 0) = 100 + 0
    norm_num
  · rw [tab5_growth_cell, if_neg (by norm_num)]

/-- C4 (amended): the outer merge followed by `fillna(0)` silently coerces
missing cells to `0`: every salon absent from the base-year table but
present in the compare-year table appears in the merged table as a
fabricated `(salon, 0, value)` row, that `0` is one of the addends of the
base-year total, and the growth computed from the fabricated `0` base is
`0` instead of the row being excluded. -/
theorem C4_fillna_fabricates_zero (t1 t2 : List (String × ℚ)) (s : String) (v : ℚ)
    (habsent : lookupKey s t1 = none) (hmem : (s, v) ∈ t2) :
    (s, 0, v) ∈ mergedFilled t1 t2 ∧
    tab5_growth_cell 0 v = 0 := by
  constructor
  · rw [mergedFilled, outerMerge]
    refine List.mem_map.mpr ⟨(s, none, some v), ?_, rfl⟩
    refine List.mem_append.mpr (Or.inr ?_)
    refine List.mem_map.mpr ⟨(s, v), ?_, rfl⟩
    refine List.mem_filter.mpr ⟨hmem, ?_⟩
    rw [habsent]
    rfl
  · rw [tab5_growth_cell, if_neg (by norm_num)]

/-- Witness for C4's amended statement at the concrete tables of the
counterexample. -/
theorem C4_fillna_fabricates_zero_witness :
    (lookupKey "B" [(("A" : String), (100 : ℚ))] = none ∧
      (("B", (500 : ℚ))) ∈ [(("A" : String), (200 : ℚ)), ("B", 500)]) ∧
    ((("B" : String), (0 : ℚ), (500 : ℚ)) ∈
        mergedFilled [("A", 100)] [("A", 200), ("B", 500)] ∧
      tab5_growth_cell 0 500 = 0) :=
  ⟨⟨by decide, by decide⟩,
    C4_fillna_fabricates_zero [("A", 100)] [("A", 200), ("B", 500)] "B" 500
      (by decide) (by decide)⟩

/-! ## `load_mtd_salon_data` (new.py lines 1456-1526) -/

/-- A raw row of an MTD CSV: the `SALONS` cell (absent = NaN) plus the
remaining cells (`S.NO`, month columns, ...), abstracted as `rest`. -/
structure MtdRow (α : Type) where
  salons : Option String
  rest : α
deriving DecidableEq

/-- Python `str.strip()`: drop whitespace from both ends. -/
def stripStr (s : String) : String :=
  String.mk (((s.data.dropWhile Char.isWhitespace).reverse.dropWhile
    Char.isWhitespace).reverse)

/-- The regex `^\d+$` of line 1491: non-empty and all decimal digits. -/
def purelyNumericB (s : String) : Bool :=
  !s.data.isEmpty && s.data.all Char.isDigit

def isPrefixB : List Char → List Char → Bool
  | [], _ => true
  | _ :: _, [] => false
  | a :: as, b :: bs => a == b && isPrefixB as bs

def hasInfixB (pat : List Char) : List Char → Bool
  | [] => isPrefixB pat []
  | c :: t => isPrefixB pat (c :: t) || hasInfixB pat t

/-- `str.lower().str.contains('total')` of lines 1520-1522. -/
def containsTotalCI (s : String) : Bool :=
  hasInfixB ['t', 'o', 't', 'a', 'l'] (s.data.map Char.toLower)

/-- The `astype(str)` view of a `SALONS` cell (pandas renders NaN as the
string `"nan"`; such rows are removed beforehand by `dropna`). -/
def salonsStr {α : Type} (r : MtdRow α) : String := r.salons.getD "nan"

/-- `load_mtd_salon_data` (lines 1484-1524), given a table whose `SALONS`
column was located (`hasSalons`; when it is missing the later column
selection raises a `KeyError` and the `except` returns an empty frame):
drop NaN identifiers, drop blank identifiers, drop purely-numeric
identifiers, optionally keep only valid `S.NO` rows (`snoValid` abstracts
the numeric `S.NO` test of lines 1494-1498), and finally drop identifiers
containing `"total"` case-insensitively.  The month-column coercion of
lines 1509-1518 does not touch `SALONS` and is absorbed into `rest`. -/
def load_mtd_salon_data {α : Type} (hasSalons hasSNO : Bool) (snoValid : α → Bool)
    (rows : List (MtdRow α)) : List (MtdRow α) :=
  if hasSalons then
    let r1 := rows.filter (fun r => r.salons.isSome)
    let r2 := r1.filter (fun r => !(stripStr (salonsStr r) == ""))
    let r3 := r2.filter (fun r => !purelyNumericB (salonsStr r))
    let r4 := if hasSNO then r3.filter (fun r => snoValid r.rest) else r3
    r4.filter (fun r => !containsTotalCI (salonsStr r))
  else []

/-- C7: every row of the normalized output has a present identifier that is
neither purely numeric nor contains `"total"` case-insensitively. -/
theorem C7_mtd_filters {α : Type} (hasSalons hasSNO : Bool) (snoValid : α → Bool)
    (rows : List (MtdRow α)) (r : MtdRow α)
    (hr : r ∈ load_mtd_salon_data hasSalons hasSNO snoValid rows) :
    ∃ s : String, r.salons = some s ∧ purelyNumericB s = false ∧
      containsTotalCI s = false := by
  rw [load_mtd_salon_data] at hr
  split at hr
  case isFalse => simp at hr
  case isTrue =>
    have htotal : containsTotalCI (salonsStr r) = false := by
      have := (List.mem_filter.mp hr).2
      simpa using this
    have h0 := (List.mem_filter.mp hr).1
    have hfacts : purelyNumericB (salonsStr r) = false ∧ r.salons.isSome = true := by
      cases hasSNO with
      | false =>
        have h' : r ∈ rows ∧ purelyNumericB (salonsStr r) = false ∧
            ¬stripStr (salonsStr r) = "" ∧ r.salons.isSome = true := by simpa using h0
        exact ⟨h'.2.1, h'.2.2.2⟩
      | true =>
        have h' : r ∈ rows ∧ snoValid r.rest = true ∧
            purelyNumericB (salonsStr r) = false ∧
            ¬stripStr (salonsStr r) = "" ∧ r.salons.isSome = true := by simpa using h0
        exact ⟨h'.2.2.1, h'.2.2.2.2⟩
    have hnum : purelyNumericB (salonsStr r) = false := hfacts.1
    have hsome : r.salons.isSome = true := hfacts.2
    obtain ⟨s, hs⟩ := Option.isSome_iff_exists.mp hsome
    refine ⟨s, hs, ?_, ?_⟩
    · rw [← hnum]
      unfold salonsStr
      rw [hs]
      rfl
    · rw [← htotal]
      unfold salonsStr
      rw [hs]
      rfl

/-- Concrete MTD rows for the C7 witness: one valid salon, one purely
numeric identifier, one summary row. -/
def c7Rows : List (MtdRow Unit) :=
  [⟨some "Chennai T Nagar", ()⟩, ⟨some "42", ()⟩, ⟨some "Grand Total", ()⟩]

/-- Witness for C7: the surviving row of the concrete table has a present,
non-numeric, non-total identifier. -/
theorem C7_mtd_filters_witness :
    (⟨some "Chennai T Nagar", ()⟩ : MtdRow Unit) ∈
      load_mtd_salon_data true false (fun _ => true) c7Rows ∧
    (∃ s : String, (⟨some "Chennai T Nagar", ()⟩ : MtdRow Unit).salons = some s ∧
      purelyNumericB s = false ∧ containsTotalCI s = false) :=
  ⟨by decide,
    C7_mtd_filters true false (fun _ => true) c7Rows ⟨some "Chennai T Nagar", ()⟩
      (by decide)⟩

/-! ## `load_data` (service.py lines 33-44) -/

/-- A raw CSV row: the `'Sale Date'` cell, the `'Sales Collected
(Exc.Tax)'` cell, and all other columns (`rest`), before coercion. -/
structure RawSvcRow (dR sR pR : Type) where
  saleDateRaw : dR
  salesRaw : sR
  rest : pR
deriving DecidableEq

/-- A row after the two coercions of lines 37-40: parsed date (NaT = none)
and numeric sales (NaN = none); `rest` untouched. -/
structure SvcDataRow (D pR : Type) where
  saleDate : Option D
  sales : Option ℚ
  rest : pR
deriving DecidableEq

/-- Per-row effect of `pd.to_datetime(..., errors='coerce')` and
`pd.to_numeric(..., errors='coerce')`: apply the parsers, keep the rest. -/
def coerceRow {dR sR pR D : Type} (parseDate : dR → Option D)
    (parseNum : sR → Option ℚ) (r : RawSvcRow dR sR pR) : SvcDataRow D pR :=
  ⟨parseDate r.saleDateRaw, parseNum r.salesRaw, r.rest⟩

/-- `load_data` (service.py lines 33-44): coerce the two columns, then
`dropna(subset=['Sale Date', 'Sales Collected (Exc.Tax)'])`.  When either
named column is missing the body raises a `KeyError`, the `except` reports
the error and returns `None` (modelled as `none`). -/
def load_data {dR sR pR D : Type} (parseDate : dR → Option D)
    (parseNum : sR → Option ℚ) (hasDateCol hasSalesCol : Bool)
    (rows : List (RawSvcRow dR sR pR)) : Option (List (SvcDataRow D pR)) :=
  if hasDateCol && hasSalesCol then
    some ((rows.map (coerceRow parseDate parseNum)).filter
      (fun r => r.saleDate.isSome && r.sales.isSome))
  else none

/-- C10: every row of a table returned by `load_data` has a non-null parsed
date and a non-null numeric sales value; a coerced row is in the output iff
both coercions succeeded (exactly the failing rows are dropped); and every
output row comes from an input row with the `rest` columns unchanged. -/
theorem C10_load_data_dropna {dR sR pR D : Type} (parseDate : dR → Option D)
    (parseNum : sR → Option ℚ) (hasDateCol hasSalesCol : Bool)
    (rows : List (RawSvcRow dR sR pR)) (out : List (SvcDataRow D pR))
    (hout : load_data parseDate parseNum hasDateCol hasSalesCol rows = some out) :
    (∀ r ∈ out, r.saleDate.isSome = true ∧ r.sales.isSome = true) ∧
    (∀ r : SvcDataRow D pR, r ∈ out ↔
      (r ∈ rows.map (coerceRow parseDate parseNum) ∧
        r.saleDate.isSome = true ∧ r.sales.isSome = true)) ∧
    (∀ r ∈ out, ∃ r0 ∈ rows, r = coerceRow parseDate parseNum r0 ∧ r.rest = r0.rest) := by
  rw [load_data] at hout
  split at hout
  case isFalse => exact absurd hout (by simp)
  case isTrue =>
    have hout' : out = (rows.map (coerceRow parseDate parseNum)).filter
        (fun r => r.saleDate.isSome && r.sales.isSome) := by
      injection hout with h
      exact h.symm
    subst hout'
    refine ⟨?_, ?_, ?_⟩
    · intro r hr
      have := (List.mem_filter.mp hr).2
      simpa using this
    · intro r
      constructor
      · intro hr
        have h1 := (List.mem_filter.mp hr).1
        have h2 := (List.mem_filter.mp hr).2
        simp at h2
        exact ⟨h1, h2⟩
      · intro ⟨h1, h2, h3⟩
        exact List.mem_filter.mpr ⟨h1, by simp [h2, h3]⟩
    · intro r hr
      obtain ⟨r0, hr0, hr0eq⟩ := List.mem_map.mp (List.mem_filter.mp hr).1
      exact ⟨r0, hr0, hr0eq.symm, by rw [← hr0eq]; rfl⟩

/-- Concrete rows for the C10 witness: one row parses fully, one has an
unparseable date. -/
def c10Rows : List (RawSvcRow String String String) :=
  [⟨"01-01-2024", "100", "walk-in"⟩, ⟨"not a date", "250", "member"⟩]

/-- Witness for C10 with concrete parsers: the bad-date row is dropped and
the surviving row keeps its other columns. -/
theorem C10_load_data_dropna_witness :
    load_data (fun s => if s == "01-01-2024" then some (1 : ℕ) else none)
        (fun s => if s == "100" then some (100 : ℚ) else none) true true c10Rows =
      some [⟨some 1, some 100, "walk-in"⟩] ∧
    ((∀ r ∈ [(⟨some 1, some 100, "walk-in"⟩ : SvcDataRow ℕ String)],
        r.saleDate.isSome = true ∧ r.sales.isSome = true) ∧
     (∀ r : SvcDataRow ℕ String,
        r ∈ [(⟨some 1, some 100, "walk-in"⟩ : SvcDataRow ℕ String)] ↔
          (r ∈ c10Rows.map (coerceRow
              (fun s => if s == "01-01-2024" then some (1 : ℕ) else none)
              (fun s => if s == "100" then some (100 : ℚ) else none)) ∧
            r.saleDate.isSome = true ∧ r.sales.isSome = true)) ∧
     (∀ r ∈ [(⟨some 1, some 100, "walk-in"⟩ : SvcDataRow ℕ String)],
        ∃ r0 ∈ c10Rows, r = coerceRow
            (fun s => if s == "01-01-2024" then some (1 : ℕ) else none)
            (fun s => if s == "100" then some (100 : ℚ) else none) r0 ∧
          r.rest = r0.rest)) :=
  ⟨by decide,
    C10_load_data_dropna
      (fun s => if s == "01-01-2024" then some (1 : ℕ) else none)
      (fun s => if s == "100" then some (100 : ℚ) else none) true true c10Rows
      [⟨some 1, some 100, "walk-in"⟩] (by decide)⟩
